import Mathlib

set_option autoImplicit false

/-!
Verification development for the Agile-Peak repository: shallow Lean
embeddings of the Python scripts (HRZdev.py, CalcPersonalHRZ.py,
API_oauth_activityread.py, API_oath_demo.py, wrapper3.py,
Activity_data_retrieve.py, compile_stream_data.py), with theorems
checking the natural-language specification against them.

Numbers: Python ints are modelled as `Nat`/`Int`; JSON numbers and the
float arithmetic of the analytics scripts are modelled as `Rat` (at the
concrete inputs the theorems use, no float value is closer than 1e-9 to
a decimal rounding boundary, so exact rational arithmetic agrees with
IEEE double arithmetic there).
-/

namespace AgilePeak

/-! ## HRZdev.py — hard zones and the time-in-zone accumulation loop -/

/-- `ZONE_DEFINITIONS` from HRZdev.py lines 41-47: five named predicates,
in dict-insertion order (the second name's "Zome" typo is the source's). -/
def ZONE_DEFINITIONS : List (String × (ℚ → Bool)) :=
  [ ("Zone 1 (0-119 bpm)",    fun hr => decide (0 ≤ hr ∧ hr ≤ 119)),
    ("Zome 2 (120-144 bpm)",  fun hr => decide (120 ≤ hr ∧ hr ≤ 144)),
    ("Zone 3 (145-165 bpm)",  fun hr => decide (145 ≤ hr ∧ hr ≤ 165)),
    ("Zone 4 (166-177 bpm)",  fun hr => decide (166 ≤ hr ∧ hr ≤ 177)),
    ("Zone 5 (>=178 bpm)",    fun hr => decide (178 ≤ hr)) ]

/-- Index of the first predicate in the list that accepts `hr`
(the inner `for ... if predicate(hr): ... break` of lines 62-65). -/
def firstMatch : List (ℚ → Bool) → ℚ → Option ℕ
  | [], _ => none
  | p :: rest, hr => if p hr then some 0 else Option.map Nat.succ (firstMatch rest hr)

/-- Zone index (0-4) the loop attributes a sample to, `none` when no
predicate matches (then the inner loop falls through without adding). -/
def classify (hr : ℚ) : Option ℕ := firstMatch (ZONE_DEFINITIONS.map Prod.snd) hr

/-- Add `dt` to the accumulator entry of zone `oz` (no-op when `none`). -/
def addToZone (acc : ℕ → ℚ) (oz : Option ℕ) (dt : ℚ) : ℕ → ℚ :=
  match oz with
  | none => acc
  | some z => Function.update acc z (acc z + dt)

/-- The loop of HRZdev.py lines 58-65, walked over `(time[i], heartrate[i])`
pairs for `i ≥ 1`; `prev` is `time[i-1]`. -/
def zoneLoop : ℚ → List (ℚ × ℚ) → (ℕ → ℚ) → (ℕ → ℚ)
  | _, [], acc => acc
  | prev, (t, h) :: rest, acc => zoneLoop t rest (addToZone acc (classify h) (t - prev))

/-- `zone_time` after the loop: per-zone accumulated seconds, starting from
the all-zero dict of line 53. -/
def zone_time (ts hs : List ℚ) : ℕ → ℚ :=
  match ts with
  | [] => fun _ => 0
  | t0 :: _ => zoneLoop t0 (ts.tail.zip hs.tail) (fun _ => 0)

/-- The list of (delta, classification) pairs the loop processes:
`(time[i] - time[i-1], classify heartrate[i])` for `i ≥ 1`. -/
def mkIntervals : ℚ → List (ℚ × ℚ) → List (ℚ × Option ℕ)
  | _, [] => []
  | prev, (t, h) :: rest => (t - prev, classify h) :: mkIntervals t rest

/-- Intervals of a paired series, as processed by the loop. -/
def intervals (ts hs : List ℚ) : List (ℚ × Option ℕ) :=
  match ts with
  | [] => []
  | t0 :: _ => mkIntervals t0 (ts.tail.zip hs.tail)

/-- Total delta attributed to zone `z` by a list of classified intervals. -/
def zoneSum (l : List (ℚ × Option ℕ)) (z : ℕ) : ℚ :=
  ((l.filter (fun p => decide (p.2 = some z))).map Prod.fst).sum

/-- First component of the last pair, with default `d` (the final value of
the loop variable `time[i]`). -/
def lastFst : List (ℚ × ℚ) → ℚ → ℚ
  | [], d => d
  | (t, _) :: rest, _ => lastFst rest t

/-- Predicate `i` of `ZONE_DEFINITIONS` applied to a heart rate (out of
range: the never-matching predicate). -/
def zoneMatch (i : ℕ) (hr : ℚ) : Bool :=
  ((ZONE_DEFINITIONS.map Prod.snd).getD i (fun _ => false)) hr

/-! ## CalcPersonalHRZ.py — compute_zones and the CLI entry -/

/-- Floor of a rational, computed as floor-division of the numerator by
the (positive) denominator. -/
def ratFloor (q : ℚ) : ℤ := Int.fdiv q.num (q.den : ℤ)

/-- Round to one decimal place, ties to even (Python 3 `round(x, 1)`;
at every value this file applies it to, the argument is not a tie). -/
def round1py (x : ℚ) : ℚ :=
  let y := x * 10
  let f : ℤ := ratFloor y
  let r : ℚ := y - (f : ℚ)
  let n : ℤ :=
    if 1/2 < r then f + 1
    else if r < 1/2 then f
    else if f % 2 = 0 then f else f + 1
  (n : ℚ) / 10

/-- `zone_percents` of CalcPersonalHRZ.py lines 100-106, with the float
literals read as exact decimals. -/
def zone_percents : List (String × ℚ × ℚ) :=
  [ ("Zone 1", 682291666666667/1000000000000000, 739583333333333/1000000000000000),
    ("Zone 2", 7396/10000, 8125/10000),
    ("Zone 3", 8126/10000, 880208333333333/1000000000000000),
    ("Zone 4", 8803/10000, 9375/10000),
    ("Zone 5", 9376/10000, 1) ]

/-- `compute_zones` of CalcPersonalHRZ.py lines 85-114: each bound is
`round(hrmax * pct, 1)`. -/
def compute_zones (hrmax : ℚ) : List (String × ℚ × ℚ) :=
  zone_percents.map (fun z => (z.1, round1py (hrmax * z.2.1), round1py (hrmax * z.2.2)))

/-- The path-selection logic of `main(argv)` (CalcPersonalHRZ.py lines
128-139): `none` models the `len(argv) < 2` usage exit; otherwise the
pair is `(input_path, output_path)` = `(argv[0], argv[1] if len(argv) > 1
else "json_dump/bad_call_hr_zones.json")`. -/
def calcMain (argv : List String) : Option (String × String) :=
  if argv.length < 2 then none
  else
    some (((argv.get? 0).getD ""),
      if argv.length > 1 then (argv.get? 1).getD ""
      else "json_dump/bad_call_hr_zones.json")

/-- The `__main__` entry of CalcPersonalHRZ.py line 171: `main(sys.argv)`,
where `sys.argv` is the program name followed by the user arguments. -/
def calcEntry (progName : String) (userArgs : List String) : Option (String × String) :=
  calcMain (progName :: userArgs)

/-! ## API_oauth_activityread.py / API_oath_demo.py — callback listener -/

/-- How `do_GET` requests the server shutdown: not at all, by spawning
`threading.Thread(target=self.server.shutdown).start()` (a separate
thread), or by calling `self.server.shutdown()` directly on the handler
thread (which would deadlock; the source never does this). -/
inductive ShutdownMode where
  | noShutdown
  | newThread
  | inline
deriving DecidableEq, Repr

/-- Result of one `do_GET` call: the class-level `auth_code` slot after the
call, the HTTP status and body sent, and the shutdown dispatch. -/
structure HandlerOutput where
  authCode : Option String
  status : ℕ
  body : String
  shutdownMode : ShutdownMode
deriving DecidableEq, Repr

/-- `OAuthHandler.do_GET` (API_oauth_activityread.py lines 24-39).
`qs` is the `parse_qs` result: an association list from parameter name to
its (always non-empty) value list; `auth` is the prior `auth_code` slot. -/
def do_GET (qs : List (String × List String)) (auth : Option String) : HandlerOutput :=
  match qs.lookup "code" with
  | some vs =>
      { authCode := some (vs.headD ""),
        status := 200,
        body := "<h1> OAuth code received you may close this tab.</h1>",
        shutdownMode := ShutdownMode.newThread }
  | none =>
      { authCode := auth,
        status := 400,
        body := "<h1> No code found in query string.</h1>",
        shutdownMode := ShutdownMode.noShutdown }

/-- Listener state: the process-wide captured-code slot and whether the
`serve_forever` loop is still accepting requests. -/
structure ServerState where
  authCode : Option String
  running : Bool
deriving DecidableEq, Repr

/-- One serve-loop step: while running, dispatch the request to `do_GET`
and stop the loop exactly when a shutdown was requested; once stopped no
request is handled. -/
def serverStep (st : ServerState) (qs : List (String × List String)) :
    ServerState × Option HandlerOutput :=
  if st.running then
    let o := do_GET qs st.authCode
    ({ authCode := o.authCode,
       running := o.shutdownMode = ShutdownMode.noShutdown }, some o)
  else (st, none)

/-! ## Token exchange (API_oauth_activityread.py 65-97, API_oath_demo.py 75-100) -/

/-- A JSON scalar as far as the token scripts inspect it. -/
inductive JVal where
  | s (v : String)
  | i (v : ℤ)
  | other
deriving DecidableEq, Repr

/-- A parsed JSON object body, in key order. -/
abbrev JObj := List (String × JVal)

/-- An HTTP response as the scripts see it: status code and parsed body. -/
structure HttpResponse where
  status : ℕ
  json : JObj
deriving DecidableEq, Repr

/-- `requests.Response.raise_for_status`: raises `HTTPError` exactly for
client and server error codes (400-599). -/
def raise_for_status (st : ℕ) : Bool := decide (400 ≤ st) && decide (st < 600)

/-- The `minimal` dict of API_oauth_activityread.py lines 91-95: exactly the
three fields, with the raw response values; `none` models the `KeyError`
crash when a field is absent. -/
def minimalRecord (info : JObj) : Option JObj :=
  match info.lookup "access_token", info.lookup "refresh_token", info.lookup "expires_at" with
  | some a, some r, some e =>
      some [("access_token", a), ("refresh_token", r), ("expires_at", e)]
  | _, _, _ => none

/-- How an `exchange_code_for_token` call ends. -/
inductive ExchangeOutcome where
  | exitedOne
  | crashed
  | completed
deriving DecidableEq, Repr

/-- `exchange_code_for_token` of API_oauth_activityread.py lines 65-97,
stripped to its observable effects: given the token-endpoint response and
the prior content of TOKEN_FILE, return the outcome and the file content
after the call (`TOKEN_FILE.write_text(json.dumps(minimal))` replaces the
file wholesale). -/
def exchange_code_for_token (resp : HttpResponse) (file : Option JObj) :
    ExchangeOutcome × Option JObj :=
  if raise_for_status resp.status then (ExchangeOutcome.exitedOne, file)
  else
    match minimalRecord resp.json with
    | some m => (ExchangeOutcome.completed, some m)
    | none => (ExchangeOutcome.crashed, file)

/-- `exchange_code_for_token` of API_oath_demo.py lines 75-100: same
exchange and status check, but the function only prints the response —
it writes no token file, so the file state passes through unchanged. -/
def exchange_code_for_token_demo (resp : HttpResponse) (file : Option JObj) :
    ExchangeOutcome × Option JObj :=
  if raise_for_status resp.status then (ExchangeOutcome.exitedOne, file)
  else (ExchangeOutcome.completed, file)

/-! ## wrapper3.py / Oauth_2_ActList.py — get_valid_token -/

/-- What reading TOKEN_FILE can observe: whether `json.loads` succeeded,
and the `access_token` / `expires_at` fields when present. -/
structure StoredToken where
  parseOk : Bool
  access_token : Option String
  expires_at : Option ℤ
deriving DecidableEq, Repr

/-- The read step of `get_valid_token` (wrapper3.py lines 48-56): a missing
file, an unparsable file, or a record without `access_token` all collapse
to `(None, 0)` via the `except` arm; `expires_at` defaults to 0. -/
def readTokenFile : Option StoredToken → Option String × ℤ
  | none => (none, 0)
  | some f =>
      if f.parseOk then
        match f.access_token with
        | none => (none, 0)
        | some t => (some t, f.expires_at.getD 0)
      else (none, 0)

/-- The three-field record the OAuth flow writes to TOKEN_FILE. -/
structure TokenRecord where
  access_token : String
  refresh_token : String
  expires_at : ℤ
deriving DecidableEq, Repr

/-- `get_valid_token` (wrapper3.py lines 42-67). `fresh` is the record the
OAuth flow (`oauther.main()`) writes to TOKEN_FILE when triggered. Returns
(flow-was-run, returned access token): the stored token is reused unless
`not access_token or expires_at <= now`; after a flow the token is re-read
from the freshly written file. -/
def get_valid_token (file : Option StoredToken) (now : ℤ) (fresh : TokenRecord) :
    Bool × String :=
  let r := readTokenFile file
  match r.1 with
  | some t => if t = "" ∨ r.2 ≤ now then (true, fresh.access_token) else (false, t)
  | none => (true, fresh.access_token)

/-! ## Activity_data_retrieve.py / compile_stream_data.py — fetchers -/

/-- An outbound HTTP request as the fetchers build it. -/
structure HttpRequest where
  method : String
  url : String
  headers : List (String × String)
  params : List (String × JVal)
deriving DecidableEq, Repr

/-- How a fetcher call ends: parsed body, `sys.exit(1)`, or a raised
exception (`RuntimeError` / `requests.HTTPError`). -/
inductive FetchResult where
  | ok (body : JObj)
  | exitedOne
  | raised
deriving DecidableEq, Repr

/-- The single request `fetch_activities` issues
(Activity_data_retrieve.py lines 56-70): fixed URL, bearer header, one
page of up to 200 items bounded to the current year. -/
def fetch_activities_request (token : String) (now yearStart : ℤ) : HttpRequest :=
  { method := "GET",
    url := "https://www.strava.com/api/v3/athlete/activities",
    headers := [("Authorization", "Bearer " ++ token), ("Accept", "application/json")],
    params := [("before", JVal.i now), ("after", JVal.i yearStart),
               ("page", JVal.i 1), ("per_page", JVal.i 200)] }

/-- `fetch_activities` (Activity_data_retrieve.py lines 42-78): issues its
one request against the oracle `respond` (the network), then
`raise_for_status` + `sys.exit(1)` on HTTP error, else the parsed body.
Returns the request trace together with the outcome. -/
def fetch_activities (token : String) (now yearStart : ℤ)
    (respond : HttpRequest → HttpResponse) : List HttpRequest × FetchResult :=
  let req := fetch_activities_request token now yearStart
  let resp := respond req
  ([req], if raise_for_status resp.status then FetchResult.exitedOne
          else FetchResult.ok resp.json)

/-- The single request `fetch_streams` issues (compile_stream_data.py
lines 66-87). -/
def fetch_streams_request (aid : ℕ) (token : String) : HttpRequest :=
  { method := "GET",
    url := "https://www.strava.com/api/v3/activities/" ++ toString aid ++ "/streams",
    headers := [("Authorization", "Bearer " ++ token)],
    params := [("keys", JVal.s "time,distance,altitude,velocity_smooth,heartrate,cadence,temp,moving,grade_smooth"),
               ("key_by_type", JVal.s "true")] }

/-- `fetch_streams` (compile_stream_data.py lines 66-93): one request, then
`if resp.status_code != 200: raise RuntimeError(...)`, else the parsed
body. -/
def fetch_streams (aid : ℕ) (token : String)
    (respond : HttpRequest → HttpResponse) : List HttpRequest × FetchResult :=
  let req := fetch_streams_request aid token
  let resp := respond req
  ([req], if resp.status ≠ 200 then FetchResult.raised else FetchResult.ok resp.json)

/-! ## compile_stream_data.py — duplicate-ID filtering and the main step

Python strings are modelled as `List Char`; `f"{act_type}_{aid}"`,
`key.split("_")`, `int(...)` and `str.lower()` are modelled character by
character below. -/

/-- A Python string. -/
abbrev PyStr := List Char

/-- The character of a decimal digit, as Python renders it. -/
def digitToChar (d : ℕ) : Char := Char.ofNat (48 + d)

/-- The digit of a decimal character, as Python's `int()` reads it. -/
def charToDigit (c : Char) : ℕ := c.toNat - 48

/-- Decimal rendering of a natural number (Python `f"{aid}"`). -/
def renderNat (n : ℕ) : PyStr :=
  if _h : n < 10 then [digitToChar n]
  else renderNat (n / 10) ++ [digitToChar (n % 10)]
  decreasing_by exact Nat.div_lt_self (by omega) (by omega)

/-- Decimal parse of a digit string (Python `int(s)` on the strings this
program itself rendered). -/
def parseNat (cs : PyStr) : ℕ := cs.foldl (fun a c => 10 * a + charToDigit c) 0

/-- Python `s.split(sep)` for a single-character separator. -/
def splitOnChar (sep : Char) : PyStr → List PyStr
  | [] => [[]]
  | c :: cs =>
      if c = sep then [] :: splitOnChar sep cs
      else
        match splitOnChar sep cs with
        | [] => [[c]]
        | g :: gs => (c :: g) :: gs

/-- A stream payload, as far as `determine_activity_type` inspects it:
the `velocity_smooth.data` list when the `velocity_smooth` key maps to a
truthy dict (`none` otherwise). -/
structure StreamData where
  velocity : Option (List ℚ)
deriving DecidableEq, Repr

/-- The metadata fields `determine_activity_type` reads from an activity
dict of the metadata file. -/
structure ActivityMeta where
  type : Option PyStr
  sport_type : Option PyStr
deriving DecidableEq, Repr

/-- Python `str.lower()`. -/
def lowerStr (s : PyStr) : PyStr := s.map Char.toLower

/-- The shared body of the two metadata checks in `determine_activity_type`
(compile_stream_data.py lines 120-133): lowercase, then `run`/`walk` map
to `"run"`, `ride` maps to `"ride"`, and anything else falls through. -/
def typeFromStr (t : PyStr) : Option PyStr :=
  let l := lowerStr t
  if l = "run".toList ∨ l = "walk".toList then some "run".toList
  else if l = "ride".toList then some "ride".toList
  else none

/-- The velocity heuristic (compile_stream_data.py lines 136-138):
`max_speed = max(velocity["data"]) if velocity else 0`, ride iff > 7.
`none` models the `ValueError` that `max([])` raises on an empty data
list (caught by the caller's `except`, which skips the activity). -/
def velocityHeuristic (stream : StreamData) : Option PyStr :=
  match stream.velocity with
  | none => some "run".toList
  | some ds =>
      match ds.max? with
      | none => none
      | some m => some (if 7 < m then "ride".toList else "run".toList)

/-- `determine_activity_type` (compile_stream_data.py lines 96-138):
explicit `type`, then `sport_type`, then the velocity heuristic. -/
def determine_activity_type (stream : StreamData) (aid : ℕ)
    (meta : ℕ → Option ActivityMeta) : Option PyStr :=
  match meta aid with
  | some m =>
      match m.type.bind typeFromStr with
      | some r => some r
      | none =>
          match m.sport_type.bind typeFromStr with
          | some r => some r
          | none => velocityHeuristic stream
  | none => velocityHeuristic stream

/-- The compiled-streams mapping, in insertion order. -/
abbrev Compiled := List (PyStr × StreamData)

/-- Python dict assignment `m[k] = v`: replace in place when the key
exists, else append. -/
def dictSet (m : Compiled) (k : PyStr) (v : StreamData) : Compiled :=
  if m.any (fun p => decide (p.1 = k)) then m.map (fun p => if p.1 = k then (k, v) else p)
  else m ++ [(k, v)]

/-- `f"{act_type}_{aid}"` (compile_stream_data.py line 169). -/
def mkKey (t : PyStr) (aid : ℕ) : PyStr := t ++ '_' :: renderNat aid

/-- `int(key.split("_")[1])`, applied only to keys containing `"_"`. -/
def extractId (k : PyStr) : ℕ := parseNat (((splitOnChar '_' k).get? 1).getD [])

/-- Ids recoverable from a list of keys: the set comprehension of
`get_missing_ids` lines 60-62,
`{int(key.split("_")[1]) for key in compiled_data if "_" in key}`. -/
def keysIds (ks : List PyStr) : List ℕ :=
  ks.filterMap (fun k => if '_' ∈ k then some (extractId k) else none)

/-- `existing_ids` over the compiled mapping's keys. -/
def existing_ids (compiled : Compiled) : List ℕ :=
  keysIds (compiled.map Prod.fst)

/-- An element of the `all_ids` argument: a bare int id, a dict with an
`"id"` field, or anything else (skipped with a warning). -/
inductive IdItem where
  | intItem (n : ℕ)
  | dictItem (n : ℕ)
  | badItem
deriving DecidableEq, Repr

/-- The cleaning loop of `get_missing_ids` lines 51-58. -/
def cleaned_ids (items : List IdItem) : List ℕ :=
  items.filterMap fun
    | IdItem.intItem n => some n
    | IdItem.dictItem n => some n
    | IdItem.badItem => none

/-- `get_missing_ids` (compile_stream_data.py lines 48-63). -/
def get_missing_ids (items : List IdItem) (compiled : Compiled) : List ℕ :=
  (cleaned_ids items).filter (fun aid => decide (aid ∉ existing_ids compiled))

/-- The fetch-and-store loop of `main` (compile_stream_data.py lines
165-178), on its success path: `fetch` stands for `fetch_streams` against
the live network. The body stores the fetched stream under
`f"{act_type}_{aid}"` twice (the source duplicates the store after the
`try` block; both assignments write the same key and value). When
`determine_activity_type` raises (`none`), the `except` arm skips the
activity. -/
def storeLoop (fetch : ℕ → StreamData) (meta : ℕ → Option ActivityMeta) :
    List ℕ → Compiled → Compiled
  | [], compiled => compiled
  | aid :: rest, compiled =>
      match determine_activity_type (fetch aid) aid meta with
      | some t =>
          let c1 := dictSet compiled (mkKey t aid) (fetch aid)
          let c2 := dictSet c1 (mkKey t aid) (fetch aid)
          storeLoop fetch meta rest c2
      | none => storeLoop fetch meta rest compiled

/-- `main` of compile_stream_data.py lines 142-181, reduced to its effect
on the compiled mapping: when nothing is missing it returns early without
saving; otherwise it runs the fetch-and-store loop over the missing ids. -/
def csd_main (fetch : ℕ → StreamData) (meta : ℕ → Option ActivityMeta)
    (items : List IdItem) (compiled : Compiled) : Compiled :=
  let missing := get_missing_ids items compiled
  if missing = [] then compiled
  else storeLoop fetch meta missing compiled

/-! ## Theorems -/

theorem ratFloor_eq_floor (q : ℚ) : ratFloor q = ⌊q⌋ := by
  rw [ratFloor, Int.fdiv_eq_ediv _ (by positivity)]
  exact Rat.floor_def.symm

theorem round1py_of_floor_lt (x : ℚ) (f : ℤ) (hf : ⌊x * 10⌋ = f)
    (h : 1/2 < x * 10 - (f : ℚ)) : round1py x = ((f : ℚ) + 1) / 10 := by
  simp only [round1py, ratFloor_eq_floor, hf, if_pos h]
  push_cast
  ring

theorem round1py_of_lt_floor (x : ℚ) (f : ℤ) (hf : ⌊x * 10⌋ = f)
    (h : x * 10 - (f : ℚ) < 1/2) : round1py x = (f : ℚ) / 10 := by
  simp only [round1py, ratFloor_eq_floor, hf, if_neg (by linarith : ¬ 1/2 < x * 10 - (f : ℚ)),
    if_pos h]

/-- Claim C5: for HRMax = 200, `compute_zones` returns exactly five zones
whose min and max equal the fixed percentage table applied to 200 with
each boundary rounded to one decimal place; in particular Zone 1 min =
136.5 (= 273/2), Zone 1 max = 147.9, and Zone 5 max = 200.0. -/
theorem compute_zones_at_200 :
    compute_zones 200 =
      [("Zone 1", 273/2, 1479/10),
       ("Zone 2", 1479/10, 325/2),
       ("Zone 3", 325/2, 176),
       ("Zone 4", 1761/10, 375/2),
       ("Zone 5", 375/2, 200)] ∧
    (compute_zones 200).length = 5 ∧
    (273 : ℚ)/2 = 1365/10 ∧ (375 : ℚ)/2 = 1875/10 := by
  have z1min : round1py (200 * (682291666666667/1000000000000000)) = 273/2 := by
    rw [round1py_of_floor_lt _ 1364 (by rw [Int.floor_eq_iff]; norm_num) (by norm_num)]
    norm_num
  have z1max : round1py (200 * (739583333333333/1000000000000000)) = 1479/10 := by
    rw [round1py_of_lt_floor _ 1479 (by rw [Int.floor_eq_iff]; norm_num) (by norm_num)]
    norm_num
  have z2min : round1py (200 * (7396/10000)) = 1479/10 := by
    rw [round1py_of_lt_floor _ 1479 (by rw [Int.floor_eq_iff]; norm_num) (by norm_num)]
    norm_num
  have z2max : round1py (200 * (8125/10000)) = 325/2 := by
    rw [round1py_of_lt_floor _ 1625 (by rw [Int.floor_eq_iff]; norm_num) (by norm_num)]
    norm_num
  have z3min : round1py (200 * (8126/10000)) = 325/2 := by
    rw [round1py_of_lt_floor _ 1625 (by rw [Int.floor_eq_iff]; norm_num) (by norm_num)]
    norm_num
  have z3max : round1py (200 * (880208333333333/1000000000000000)) = 176 := by
    rw [round1py_of_lt_floor _ 1760 (by rw [Int.floor_eq_iff]; norm_num) (by norm_num)]
    norm_num
  have z4min : round1py (200 * (8803/10000)) = 1761/10 := by
    rw [round1py_of_floor_lt _ 1760 (by rw [Int.floor_eq_iff]; norm_num) (by norm_num)]
    norm_num
  have z4max : round1py (200 * (9375/10000)) = 375/2 := by
    rw [round1py_of_lt_floor _ 1875 (by rw [Int.floor_eq_iff]; norm_num) (by norm_num)]
    norm_num
  have z5min : round1py (200 * (9376/10000)) = 375/2 := by
    rw [round1py_of_lt_floor _ 1875 (by rw [Int.floor_eq_iff]; norm_num) (by norm_num)]
    norm_num
  have z5max : round1py (200 * 1) = 200 := by
    rw [round1py_of_lt_floor _ 2000 (by rw [Int.floor_eq_iff]; norm_num) (by norm_num)]
    norm_num
  refine ⟨?_, ?_, by norm_num, by norm_num⟩
  · simp only [compute_zones, zone_percents, List.map, z1min, z1max, z2min, z2max,
      z3min, z3max, z4min, z4max, z5min, z5max]
  · rfl

/-- Claim C9: the zone-calculator CLI passes the full `sys.argv` (program
name included) into `main`, so with at least one user argument the input
file opened is `argv[0]` — the script path itself — and the zones are
written to `argv[1]`, the path the user supplied as input; whenever
the `len(argv) >= 2` guard passes, the output is `argv[1]`, so the
documented fallback output path is unreachable. -/
theorem calcEntry_reads_script_path (prog u : String) (us : List String) :
    calcEntry prog (u :: us) = some (prog, u) ∧
    (∀ argv : List String, 2 ≤ argv.length →
      calcMain argv = some (((argv.get? 0).getD ""), (argv.get? 1).getD "")) := by
  constructor
  · simp [calcEntry, calcMain]
  · intro argv hlen
    have h1 : ¬ argv.length < 2 := by omega
    have h2 : argv.length > 1 := by omega
    simp [calcMain, h1, h2]

/-- Witness for C9 at a concrete invocation. -/
theorem calcEntry_reads_script_path_witness :
    calcEntry "find_hr_zones.py" ["data.json"] = some ("find_hr_zones.py", "data.json") ∧
    calcMain ["find_hr_zones.py", "data.json"] = some ("find_hr_zones.py", "data.json") :=
  ⟨(calcEntry_reads_script_path "find_hr_zones.py" "data.json" []).1,
   (calcEntry_reads_script_path "find_hr_zones.py" "data.json" []).2
     ["find_hr_zones.py", "data.json"] (by decide)⟩

/-- Claim C2: for every inbound GET whose query string contains a `code`
parameter, the handler stores exactly that parameter's value in the
process-wide `OAuthHandler.auth_code` slot, responds 200 with a short
confirmation body, and dispatches the server shutdown onto a separate
thread — never invoking the blocking shutdown on the handler thread
itself, so the handler cannot deadlock on its own event loop. -/
theorem do_GET_code_captures (qs : List (String × List String)) (auth : Option String)
    (v : String) (rest : List String) (h : qs.lookup "code" = some (v :: rest)) :
    (do_GET qs auth).authCode = some v ∧
    (do_GET qs auth).status = 200 ∧
    (do_GET qs auth).body = "<h1> OAuth code received you may close this tab.</h1>" ∧
    (do_GET qs auth).shutdownMode = ShutdownMode.newThread ∧
    (do_GET qs auth).shutdownMode ≠ ShutdownMode.inline := by
  simp [do_GET, h]

/-- Witness for C2 at a concrete redirect. -/
theorem do_GET_code_captures_witness :
    (do_GET [("code", ["abc123"])] none).authCode = some "abc123" ∧
    (do_GET [("code", ["abc123"])] none).shutdownMode = ShutdownMode.newThread :=
  ⟨(do_GET_code_captures [("code", ["abc123"])] none "abc123" [] rfl).1,
   (do_GET_code_captures [("code", ["abc123"])] none "abc123" [] rfl).2.2.2.1⟩

/-- Claim C3: for every inbound GET without a `code` parameter, the
listener responds 400 with a short error body, leaves the captured-code
slot untouched and does not shut down — the serve loop stays running and
still captures a later request that does carry a `code` parameter. -/
theorem do_GET_no_code (qs qs2 : List (String × List String)) (st : ServerState)
    (v : String) (rest : List String)
    (hrun : st.running = true)
    (h : qs.lookup "code" = none)
    (h2 : qs2.lookup "code" = some (v :: rest)) :
    (serverStep st qs).2 = some (do_GET qs st.authCode) ∧
    (do_GET qs st.authCode).status = 400 ∧
    (do_GET qs st.authCode).body = "<h1> No code found in query string.</h1>" ∧
    (do_GET qs st.authCode).authCode = st.authCode ∧
    (do_GET qs st.authCode).shutdownMode = ShutdownMode.noShutdown ∧
    (serverStep st qs).1.running = true ∧
    (serverStep st qs).1.authCode = st.authCode ∧
    (serverStep (serverStep st qs).1 qs2).1.authCode = some v := by
  refine ⟨?_, ?_, ?_, ?_, ?_, ?_, ?_, ?_⟩ <;>
    simp [serverStep, do_GET, h, h2, hrun]

/-- Witness for C3: a malformed request followed by a valid one. -/
theorem do_GET_no_code_witness :
    (serverStep { authCode := none, running := true } []).1.running = true ∧
    (serverStep (serverStep { authCode := none, running := true } []).1
        [("code", ["xyz"])]).1.authCode = some "xyz" :=
  ⟨(do_GET_no_code [] [("code", ["xyz"])] { authCode := none, running := true }
      "xyz" [] rfl rfl rfl).2.2.2.2.2.1,
   (do_GET_no_code [] [("code", ["xyz"])] { authCode := none, running := true }
      "xyz" [] rfl rfl rfl).2.2.2.2.2.2.2⟩

/-- Claim C6: a stored TokenRecord is reused (no authorization flow is
started) exactly when a non-empty `access_token` is read back and
`expires_at` is strictly greater than the current epoch time; in every
other case (missing file, unreadable record, missing or empty token,
`expires_at <= now`) `get_valid_token` runs a fresh authorization cycle
and returns the access token of the freshly written token file.
Presence of the token is Python truthiness: `not access_token` treats an
empty string like a missing one. -/
theorem get_valid_token_reuse_iff (file : Option StoredToken) (now : ℤ)
    (fresh : TokenRecord) :
    ((get_valid_token file now fresh).1 = false ↔
      ∃ t, (readTokenFile file).1 = some t ∧ t ≠ "" ∧ now < (readTokenFile file).2) ∧
    ((get_valid_token file now fresh).1 = false →
      some (get_valid_token file now fresh).2 = (readTokenFile file).1) ∧
    ((get_valid_token file now fresh).1 = true →
      (get_valid_token file now fresh).2 = fresh.access_token) := by
  rcases h : (readTokenFile file).1 with _ | t
  · simp [get_valid_token, h]
  · by_cases he : t = ""
    · subst he
      simp [get_valid_token, h]
    · rcases le_or_lt (readTokenFile file).2 now with hexp | hexp
      · have hnl : ¬ now < (readTokenFile file).2 := not_lt.mpr hexp
        simp [get_valid_token, h, he, hexp, hnl]
      · have hnle : ¬ (readTokenFile file).2 ≤ now := not_le.mpr hexp
        simp [get_valid_token, h, he, hnle, hexp]

/-- Witness for C6: a valid stored token is reused; with no token file the
fresh token is returned. -/
theorem get_valid_token_reuse_iff_witness :
    (get_valid_token (some { parseOk := true, access_token := some "tok", expires_at := some 100 })
        50 { access_token := "fresh", refresh_token := "r", expires_at := 0 }).1 = false ∧
    (get_valid_token none 50
        { access_token := "fresh", refresh_token := "r", expires_at := 0 }).2 = "fresh" :=
  ⟨(get_valid_token_reuse_iff
      (some { parseOk := true, access_token := some "tok", expires_at := some 100 }) 50
      { access_token := "fresh", refresh_token := "r", expires_at := 0 }).1.mpr
      ⟨"tok", rfl, by decide, by decide⟩,
   (get_valid_token_reuse_iff none 50
      { access_token := "fresh", refresh_token := "r", expires_at := 0 }).2.2 rfl⟩

/-- Claim C1 (amended): for every successful 2xx token-exchange response
whose body carries `access_token`, `refresh_token` and `expires_at`, the
API_oauth_activityread variant of `exchange_code_for_token` persists to
the token file exactly the three-field record with the raw response
values (`expires_at` verbatim), discarding every other response field and
overwriting any prior file content wholesale; the API_oath_demo variant
performs the same exchange but persists nothing — its token-file state
passes through unchanged. -/
theorem exchange_persists_minimal (resp : HttpResponse) (file : Option JObj)
    (a r e : JVal)
    (h2 : 200 ≤ resp.status) (h3 : resp.status < 300)
    (ha : resp.json.lookup "access_token" = some a)
    (hrv : resp.json.lookup "refresh_token" = some r)
    (he : resp.json.lookup "expires_at" = some e) :
    exchange_code_for_token resp file =
      (ExchangeOutcome.completed,
        some [("access_token", a), ("refresh_token", r), ("expires_at", e)]) ∧
    exchange_code_for_token_demo resp file = (ExchangeOutcome.completed, file) := by
  have hd : decide (400 ≤ resp.status) = false := decide_eq_false (by omega)
  have hrs : raise_for_status resp.status = false := by
    simp [raise_for_status, hd]
  simp [exchange_code_for_token, exchange_code_for_token_demo, hrs, minimalRecord,
    ha, hrv, he]

/-- Witness for C1 at the spec's mocked response, with extra fields and a
stale prior file to discard. -/
theorem exchange_persists_minimal_witness :
    exchange_code_for_token
        { status := 200,
          json := [("token_type", JVal.s "Bearer"), ("access_token", JVal.s "A"),
                   ("refresh_token", JVal.s "B"), ("expires_at", JVal.i 1700000000),
                   ("athlete", JVal.other)] }
        (some [("stale", JVal.s "x")]) =
      (ExchangeOutcome.completed,
        some [("access_token", JVal.s "A"), ("refresh_token", JVal.s "B"),
              ("expires_at", JVal.i 1700000000)]) :=
  (exchange_persists_minimal
      { status := 200,
        json := [("token_type", JVal.s "Bearer"), ("access_token", JVal.s "A"),
                 ("refresh_token", JVal.s "B"), ("expires_at", JVal.i 1700000000),
                 ("athlete", JVal.other)] }
      (some [("stale", JVal.s "x")]) (JVal.s "A") (JVal.s "B") (JVal.i 1700000000)
      (by decide) (by decide) rfl rfl rfl).1

/-- Counterexample for C1 as stated: at the spec's mocked 200 response,
the API_oath_demo variant of `exchange_code_for_token` (cited by the
claim) persists nothing — the token file stays empty instead of holding
the three-field record. -/
theorem exchange_demo_no_persist_cex :
    (exchange_code_for_token_demo
        { status := 200,
          json := [("access_token", JVal.s "A"), ("refresh_token", JVal.s "B"),
                   ("expires_at", JVal.i 1700000000)] } none).2 = none ∧
    ¬ ((exchange_code_for_token_demo
        { status := 200,
          json := [("access_token", JVal.s "A"), ("refresh_token", JVal.s "B"),
                   ("expires_at", JVal.i 1700000000)] } none).2 =
      some [("access_token", JVal.s "A"), ("refresh_token", JVal.s "B"),
            ("expires_at", JVal.i 1700000000)]) := by
  constructor
  · decide
  · decide

/-- Claim C8 (amended): each fetcher performs exactly one authenticated
GET against its fixed endpoint with the bearer token in the Authorization
header and no retry; `fetch_activities` requests a single page of at most
200 items (page=1, per_page=200), returns the parsed body when the status
is outside 400-599 (in particular for every 2xx) and exits with code 1
exactly when 400 <= status < 600; `fetch_streams` returns the parsed body
exactly when the status is 200 and raises for every other status
(including 2xx statuses other than 200). -/
theorem fetchers_single_request (token : String) (now yearStart : ℤ) (aid : ℕ)
    (respond : HttpRequest → HttpResponse) :
    (fetch_activities token now yearStart respond).1 =
      [fetch_activities_request token now yearStart] ∧
    (fetch_activities_request token now yearStart).method = "GET" ∧
    (fetch_activities_request token now yearStart).headers.lookup "Authorization" =
      some ("Bearer " ++ token) ∧
    (fetch_activities_request token now yearStart).params.lookup "page" =
      some (JVal.i 1) ∧
    (fetch_activities_request token now yearStart).params.lookup "per_page" =
      some (JVal.i 200) ∧
    ((respond (fetch_activities_request token now yearStart)).status < 400 ∨
        600 ≤ (respond (fetch_activities_request token now yearStart)).status →
      (fetch_activities token now yearStart respond).2 =
        FetchResult.ok (respond (fetch_activities_request token now yearStart)).json) ∧
    (400 ≤ (respond (fetch_activities_request token now yearStart)).status →
      (respond (fetch_activities_request token now yearStart)).status < 600 →
      (fetch_activities token now yearStart respond).2 = FetchResult.exitedOne) ∧
    (fetch_streams aid token respond).1 = [fetch_streams_request aid token] ∧
    (fetch_streams_request aid token).method = "GET" ∧
    (fetch_streams_request aid token).headers.lookup "Authorization" =
      some ("Bearer " ++ token) ∧
    ((respond (fetch_streams_request aid token)).status = 200 ↔
      (fetch_streams aid token respond).2 =
        FetchResult.ok (respond (fetch_streams_request aid token)).json) ∧
    ((respond (fetch_streams_request aid token)).status ≠ 200 →
      (fetch_streams aid token respond).2 = FetchResult.raised) := by
  refine ⟨rfl, rfl, rfl, rfl, rfl, ?_, ?_, rfl, rfl, rfl, ?_, ?_⟩
  · intro h
    have hrs : raise_for_status (respond (fetch_activities_request token now yearStart)).status
        = false := by
      rcases h with h | h
      · simp [raise_for_status, decide_eq_false (by omega : ¬ 400 ≤
          (respond (fetch_activities_request token now yearStart)).status)]
      · simp [raise_for_status, decide_eq_false (by omega :
          ¬ (respond (fetch_activities_request token now yearStart)).status < 600)]
    simp [fetch_activities, hrs]
  · intro h1 h2
    have hrs : raise_for_status (respond (fetch_activities_request token now yearStart)).status
        = true := by
      simp [raise_for_status]
      omega
    simp [fetch_activities, hrs]
  · constructor
    · intro h
      simp [fetch_streams, h]
    · intro h
      by_contra hne
      simp [fetch_streams, hne] at h
  · intro h
    simp [fetch_streams, h]

/-- Witness for C8: a 200 returns the body in both fetchers' styles, a 404
exits / raises. -/
theorem fetchers_single_request_witness :
    (fetch_activities "tok" 0 0 (fun _ => { status := 200, json := [] })).2 =
      FetchResult.ok [] ∧
    (fetch_activities "tok" 0 0 (fun _ => { status := 404, json := [] })).2 =
      FetchResult.exitedOne ∧
    (fetch_streams 7 "tok" (fun _ => { status := 404, json := [] })).2 =
      FetchResult.raised := by
  refine ⟨?_, ?_, ?_⟩
  · exact (fetchers_single_request "tok" 0 0 7
      (fun _ => { status := 200, json := [] })).2.2.2.2.2.1 (Or.inl (by decide))
  · exact (fetchers_single_request "tok" 0 0 7
      (fun _ => { status := 404, json := [] })).2.2.2.2.2.2.1 (by decide) (by decide)
  · exact (fetchers_single_request "tok" 0 0 7
      (fun _ => { status := 404, json := [] })).2.2.2.2.2.2.2.2.2.2.2 (by decide)

/-- Counterexample for C8 as stated: a 201 response is a 2xx success, yet
`fetch_streams` raises instead of returning the parsed body (its check is
`status != 200`, not 2xx). -/
theorem fetch_streams_2xx_raises_cex :
    (fetch_streams 1 "t" (fun _ => { status := 201, json := [] })).2 =
      FetchResult.raised ∧
    ¬ ((fetch_streams 1 "t" (fun _ => { status := 201, json := [] })).2 =
      FetchResult.ok []) := by
  constructor
  · decide
  · decide

/-! ### Time-in-zone: helper lemmas and claims C4 -/

theorem zoneLoop_apply (pairs : List (ℚ × ℚ)) :
    ∀ (prev : ℚ) (acc : ℕ → ℚ) (z : ℕ),
      zoneLoop prev pairs acc z = acc z + zoneSum (mkIntervals prev pairs) z := by
  induction pairs with
  | nil => intro prev acc z; simp [zoneLoop, mkIntervals, zoneSum]
  | cons p rest ih =>
    rcases p with ⟨t, h⟩
    intro prev acc z
    rw [zoneLoop, ih]
    rcases hc : classify h with _ | z0
    · simp [addToZone, mkIntervals, zoneSum, List.filter_cons, hc]
    · by_cases hz : z0 = z
      · subst hz
        simp [addToZone, mkIntervals, zoneSum, List.filter_cons, hc, Function.update_same]
        ring
      · have hz' : ¬ z = z0 := fun hh => hz hh.symm
        simp [addToZone, mkIntervals, zoneSum, List.filter_cons, hc,
          Function.update_apply, hz, hz']

theorem firstMatch_lt_length (l : List (ℚ → Bool)) (q : ℚ) :
    ∀ z : ℕ, firstMatch l q = some z → z < l.length := by
  induction l with
  | nil => intro z h; simp [firstMatch] at h
  | cons p rest ih =>
    intro z h
    rw [firstMatch] at h
    by_cases hp : p q = true
    · rw [if_pos hp] at h
      obtain rfl : (0 : ℕ) = z := Option.some.inj h
      simp
    · rw [if_neg hp] at h
      obtain ⟨z0, hz0, rfl⟩ := Option.map_eq_some'.mp h
      have := ih z0 hz0
      simp only [List.length_cons]
      omega

theorem classify_lt_five (q : ℚ) (z : ℕ) (h : classify q = some z) : z < 5 := by
  have := firstMatch_lt_length (ZONE_DEFINITIONS.map Prod.snd) q z h
  simpa [ZONE_DEFINITIONS] using this

theorem mkIntervals_mem_snd (pairs : List (ℚ × ℚ)) :
    ∀ (prev : ℚ) (p : ℚ × Option ℕ), p ∈ mkIntervals prev pairs →
      ∃ hq, p.2 = classify hq := by
  induction pairs with
  | nil => intro prev p hp; simp [mkIntervals] at hp
  | cons q rest ih =>
    rcases q with ⟨t, h⟩
    intro prev p hp
    simp only [mkIntervals, List.mem_cons] at hp
    rcases hp with rfl | hp
    · exact ⟨h, rfl⟩
    · exact ih t p hp

theorem sum_zoneSum (l : List (ℚ × Option ℕ))
    (hl : ∀ p ∈ l, ∃ z, p.2 = some z ∧ z < 5) :
    ∑ z ∈ Finset.range 5, zoneSum l z = (l.map Prod.fst).sum := by
  induction l with
  | nil => simp [zoneSum]
  | cons p rest ih =>
    obtain ⟨z0, hz0, hz05⟩ := hl p (List.mem_cons_self p rest)
    have hrest : ∀ q ∈ rest, ∃ z, q.2 = some z ∧ z < 5 := fun q hq =>
      hl q (List.mem_cons_of_mem p hq)
    have hcons : ∀ z, zoneSum (p :: rest) z = (if z0 = z then p.1 else 0) + zoneSum rest z := by
      intro z
      by_cases hz : z0 = z
      · subst hz; simp [zoneSum, List.filter_cons, hz0]
      · simp [zoneSum, List.filter_cons, hz0, hz]
    simp only [hcons]
    rw [Finset.sum_add_distrib, ih hrest, Finset.sum_ite_eq (Finset.range 5) z0 (fun _ => p.1)]
    simp [Finset.mem_range.mpr hz05]

theorem mkIntervals_sum (pairs : List (ℚ × ℚ)) :
    ∀ prev : ℚ, ((mkIntervals prev pairs).map Prod.fst).sum = lastFst pairs prev - prev := by
  induction pairs with
  | nil => intro prev; simp [mkIntervals, lastFst]
  | cons q rest ih =>
    rcases q with ⟨t, h⟩
    intro prev
    simp only [mkIntervals, List.map_cons, List.sum_cons, ih t, lastFst]
    ring

theorem lastFst_zip (ts : List ℚ) :
    ∀ (hs : List ℚ) (d : ℚ), ts.length = hs.length →
      lastFst (ts.zip hs) d = ts.getLastD d := by
  induction ts with
  | nil => intro hs d _; simp [lastFst]
  | cons t rest ih =>
    intro hs d hlen
    cases hs with
    | nil => simp at hlen
    | cons h hrest =>
      simp only [List.zip_cons_cons, lastFst, List.getLastD_cons]
      exact ih hrest t (by simpa using hlen)

/-- Claim C4 (amended): for equal-length series with strictly increasing
time, the accumulator attributes each interval `time[i] - time[i-1]` to
the zone whose predicate first matches `heartrate[i]` (the later sample,
first-match-wins in zone-definition order, so each interval is counted at
most once); provided every sample at index >= 1 matches some zone (as
every non-negative integer heart rate does), the per-zone totals
partition the intervals, and their sum equals the total elapsed time
`time[n-1] - time[0]`. Unclassifiable samples (see C10) drop their
interval, which is what the amendment excludes. -/
theorem zone_time_partition (ts hs : List ℚ)
    (hlen : ts.length = hs.length) (hne : ts ≠ [])
    (hmono : ts.Chain' (· < ·))
    (hcls : ∀ p ∈ intervals ts hs, (p.2).isSome = true) :
    (∀ z : ℕ, zone_time ts hs z = zoneSum (intervals ts hs) z) ∧
    ∑ z ∈ Finset.range 5, zone_time ts hs z = ts.getLastD 0 - ts.headD 0 := by
  rcases ts with _ | ⟨t0, rest⟩
  · exact absurd rfl hne
  rcases hs with _ | ⟨h0, hrest⟩
  · simp at hlen
  have hI : intervals (t0 :: rest) (h0 :: hrest) = mkIntervals t0 (rest.zip hrest) := rfl
  have hZ : ∀ z, zone_time (t0 :: rest) (h0 :: hrest) z =
      zoneSum (mkIntervals t0 (rest.zip hrest)) z := by
    intro z
    show zoneLoop t0 (rest.zip hrest) (fun _ => 0) z = _
    rw [zoneLoop_apply]
    simp
  refine ⟨fun z => by rw [hI]; exact hZ z, ?_⟩
  have hl5 : ∀ p ∈ mkIntervals t0 (rest.zip hrest), ∃ z, p.2 = some z ∧ z < 5 := by
    intro p hp
    have hsome := hcls p (by rw [hI]; exact hp)
    obtain ⟨hq, hpq⟩ := mkIntervals_mem_snd (rest.zip hrest) t0 p hp
    rcases hz : p.2 with _ | z
    · rw [hz] at hsome; simp at hsome
    · exact ⟨z, rfl, classify_lt_five hq z (hpq.symm.trans hz)⟩
  calc ∑ z ∈ Finset.range 5, zone_time (t0 :: rest) (h0 :: hrest) z
      = ∑ z ∈ Finset.range 5, zoneSum (mkIntervals t0 (rest.zip hrest)) z :=
        Finset.sum_congr rfl (fun z _ => hZ z)
    _ = ((mkIntervals t0 (rest.zip hrest)).map Prod.fst).sum := sum_zoneSum _ hl5
    _ = lastFst (rest.zip hrest) t0 - t0 := mkIntervals_sum _ t0
    _ = (t0 :: rest).getLastD 0 - (t0 :: rest).headD 0 := by
        rw [lastFst_zip rest hrest t0 (by simpa using hlen), List.getLastD_cons]
        simp

/-- Witness for C4 at the spec's example series. -/
theorem zone_time_partition_witness :
    ∑ z ∈ Finset.range 5, zone_time [0, 10, 20, 30] [100, 150, 170, 190] z =
      ([0, 10, 20, 30] : List ℚ).getLastD 0 - ([0, 10, 20, 30] : List ℚ).headD 0 :=
  (zone_time_partition [0, 10, 20, 30] [100, 150, 170, 190] rfl (by simp)
    (by norm_num [List.chain'_cons]) (by decide)).2

/-- Counterexample for C4 as stated: with time `[0, 10]` strictly
increasing and equal-length heart rates `[100, -5]`, the sample `-5`
matches no zone, so every zone accumulates 0 and the per-zone sum is 0,
not the total elapsed time 10. -/
theorem zone_time_drop_cex :
    ¬ (∑ z ∈ Finset.range 5, zone_time [0, 10] [100, -5] z =
        ([0, 10] : List ℚ).getLastD 0 - ([0, 10] : List ℚ).headD 0) := by
  have hc : classify (-5) = none := by decide
  intro h
  simp [Finset.sum_range_succ, zone_time, zoneLoop, addToZone, hc,
    List.getLastD, List.headD] at h

/-! ### Zone coverage: claim C10 -/

theorem zoneMatch_zero_iff (n : ℕ) : zoneMatch 0 (n : ℚ) = true ↔ n ≤ 119 := by
  simp only [zoneMatch, ZONE_DEFINITIONS, List.map, List.getD, List.get?, Option.getD,
    decide_eq_true_eq]
  constructor
  · rintro ⟨-, h2⟩
    exact_mod_cast h2
  · intro h
    exact ⟨by positivity, by exact_mod_cast h⟩

theorem zoneMatch_one_iff (n : ℕ) : zoneMatch 1 (n : ℚ) = true ↔ 120 ≤ n ∧ n ≤ 144 := by
  simp only [zoneMatch, ZONE_DEFINITIONS, List.map, List.getD, List.get?, Option.getD,
    decide_eq_true_eq]
  constructor
  · rintro ⟨h1, h2⟩
    exact ⟨by exact_mod_cast h1, by exact_mod_cast h2⟩
  · rintro ⟨h1, h2⟩
    exact ⟨by exact_mod_cast h1, by exact_mod_cast h2⟩

theorem zoneMatch_two_iff (n : ℕ) : zoneMatch 2 (n : ℚ) = true ↔ 145 ≤ n ∧ n ≤ 165 := by
  simp only [zoneMatch, ZONE_DEFINITIONS, List.map, List.getD, List.get?, Option.getD,
    decide_eq_true_eq]
  constructor
  · rintro ⟨h1, h2⟩
    exact ⟨by exact_mod_cast h1, by exact_mod_cast h2⟩
  · rintro ⟨h1, h2⟩
    exact ⟨by exact_mod_cast h1, by exact_mod_cast h2⟩

theorem zoneMatch_three_iff (n : ℕ) : zoneMatch 3 (n : ℚ) = true ↔ 166 ≤ n ∧ n ≤ 177 := by
  simp only [zoneMatch, ZONE_DEFINITIONS, List.map, List.getD, List.get?, Option.getD,
    decide_eq_true_eq]
  constructor
  · rintro ⟨h1, h2⟩
    exact ⟨by exact_mod_cast h1, by exact_mod_cast h2⟩
  · rintro ⟨h1, h2⟩
    exact ⟨by exact_mod_cast h1, by exact_mod_cast h2⟩

theorem zoneMatch_four_iff (n : ℕ) : zoneMatch 4 (n : ℚ) = true ↔ 178 ≤ n := by
  simp only [zoneMatch, ZONE_DEFINITIONS, List.map, List.getD, List.get?, Option.getD,
    decide_eq_true_eq]
  constructor
  · intro h
    exact_mod_cast h
  · intro h
    exact_mod_cast h

/-- Claim C10: the five hard-zone predicates (0-119, 120-144, 145-165,
166-177, >=178) are pairwise disjoint and jointly cover every
non-negative integer heart rate — exactly one predicate matches each
`n : Nat`; for non-integer heart rates the union has gaps (any value
strictly between 119 and 120, 144 and 145, 165 and 166, or 177 and 178
matches no zone, and negative values match none), and an unclassified
sample's interval duration is silently dropped from every zone. -/
theorem zones_partition_integers :
    (∀ n : ℕ, ∃! i : ℕ, i < 5 ∧ zoneMatch i (n : ℚ) = true) ∧
    (∀ q : ℚ, (119 < q ∧ q < 120) ∨ (144 < q ∧ q < 145) ∨ (165 < q ∧ q < 166) ∨
        (177 < q ∧ q < 178) ∨ q < 0 → classify q = none) ∧
    (∀ t0 t1 h0 q : ℚ, classify q = none → ∀ z, zone_time [t0, t1] [h0, q] z = 0) := by
  refine ⟨?_, ?_, ?_⟩
  · intro n
    rcases Nat.lt_or_ge n 120 with h1 | h1
    · refine ⟨0, ⟨by omega, (zoneMatch_zero_iff n).mpr (by omega)⟩, ?_⟩
      rintro j ⟨hj5, hj⟩
      interval_cases j
      · rfl
      · exact absurd ((zoneMatch_one_iff n).mp hj) (by omega)
      · exact absurd ((zoneMatch_two_iff n).mp hj) (by omega)
      · exact absurd ((zoneMatch_three_iff n).mp hj) (by omega)
      · exact absurd ((zoneMatch_four_iff n).mp hj) (by omega)
    · rcases Nat.lt_or_ge n 145 with h2 | h2
      · refine ⟨1, ⟨by omega, (zoneMatch_one_iff n).mpr (by omega)⟩, ?_⟩
        rintro j ⟨hj5, hj⟩
        interval_cases j
        · exact absurd ((zoneMatch_zero_iff n).mp hj) (by omega)
        · rfl
        · exact absurd ((zoneMatch_two_iff n).mp hj) (by omega)
        · exact absurd ((zoneMatch_three_iff n).mp hj) (by omega)
        · exact absurd ((zoneMatch_four_iff n).mp hj) (by omega)
      · rcases Nat.lt_or_ge n 166 with h3 | h3
        · refine ⟨2, ⟨by omega, (zoneMatch_two_iff n).mpr (by omega)⟩, ?_⟩
          rintro j ⟨hj5, hj⟩
          interval_cases j
          · exact absurd ((zoneMatch_zero_iff n).mp hj) (by omega)
          · exact absurd ((zoneMatch_one_iff n).mp hj) (by omega)
          · rfl
          · exact absurd ((zoneMatch_three_iff n).mp hj) (by omega)
          · exact absurd ((zoneMatch_four_iff n).mp hj) (by omega)
        · rcases Nat.lt_or_ge n 178 with h4 | h4
          · refine ⟨3, ⟨by omega, (zoneMatch_three_iff n).mpr (by omega)⟩, ?_⟩
            rintro j ⟨hj5, hj⟩
            interval_cases j
            · exact absurd ((zoneMatch_zero_iff n).mp hj) (by omega)
            · exact absurd ((zoneMatch_one_iff n).mp hj) (by omega)
            · exact absurd ((zoneMatch_two_iff n).mp hj) (by omega)
            · rfl
            · exact absurd ((zoneMatch_four_iff n).mp hj) (by omega)
          · refine ⟨4, ⟨by omega, (zoneMatch_four_iff n).mpr (by omega)⟩, ?_⟩
            rintro j ⟨hj5, hj⟩
            interval_cases j
            · exact absurd ((zoneMatch_zero_iff n).mp hj) (by omega)
            · exact absurd ((zoneMatch_one_iff n).mp hj) (by omega)
            · exact absurd ((zoneMatch_two_iff n).mp hj) (by omega)
            · exact absurd ((zoneMatch_three_iff n).mp hj) (by omega)
            · rfl
  · intro q hq
    have p1 : decide ((0 : ℚ) ≤ q ∧ q ≤ 119) = false := decide_eq_false (by
      rcases hq with ⟨a, b⟩ | ⟨a, b⟩ | ⟨a, b⟩ | ⟨a, b⟩ | a <;> rintro ⟨c1, c2⟩ <;> linarith)
    have p2 : decide ((120 : ℚ) ≤ q ∧ q ≤ 144) = false := decide_eq_false (by
      rcases hq with ⟨a, b⟩ | ⟨a, b⟩ | ⟨a, b⟩ | ⟨a, b⟩ | a <;> rintro ⟨c1, c2⟩ <;> linarith)
    have p3 : decide ((145 : ℚ) ≤ q ∧ q ≤ 165) = false := decide_eq_false (by
      rcases hq with ⟨a, b⟩ | ⟨a, b⟩ | ⟨a, b⟩ | ⟨a, b⟩ | a <;> rintro ⟨c1, c2⟩ <;> linarith)
    have p4 : decide ((166 : ℚ) ≤ q ∧ q ≤ 177) = false := decide_eq_false (by
      rcases hq with ⟨a, b⟩ | ⟨a, b⟩ | ⟨a, b⟩ | ⟨a, b⟩ | a <;> rintro ⟨c1, c2⟩ <;> linarith)
    have p5 : decide ((178 : ℚ) ≤ q) = false := decide_eq_false (by
      rcases hq with ⟨a, b⟩ | ⟨a, b⟩ | ⟨a, b⟩ | ⟨a, b⟩ | a <;> intro c1 <;> linarith)
    simp [classify, ZONE_DEFINITIONS, firstMatch, p1, p2, p3, p4, p5]
  · intro t0 t1 h0 q hq z
    simp [zone_time, zoneLoop, addToZone, hq]

/-- Witness for C10: 119.5 falls in a gap, and a negative sample's
interval is dropped from every zone. -/
theorem zones_partition_integers_witness :
    classify (239/2) = none ∧ zone_time [0, 10] [100, -1] 3 = 0 :=
  ⟨zones_partition_integers.2.1 (239/2) (Or.inl ⟨by norm_num, by norm_num⟩),
   zones_partition_integers.2.2 0 10 100 (-1)
     (zones_partition_integers.2.1 (-1)
       (Or.inr (Or.inr (Or.inr (Or.inr (by norm_num)))))) 3⟩

/-! ### Stream compilation: decimal/key round-trips and claim C7 -/

theorem charToDigit_digitToChar (d : ℕ) (hd : d < 10) : charToDigit (digitToChar d) = d := by
  interval_cases d <;> decide

theorem digitToChar_ne_underscore (d : ℕ) (hd : d < 10) : digitToChar d ≠ '_' := by
  interval_cases d <;> decide

theorem renderNat_digits (n : ℕ) : ∀ c ∈ renderNat n, ∃ d, d < 10 ∧ c = digitToChar d := by
  induction n using Nat.strong_induction_on with
  | _ n ih =>
    intro c hc
    rw [renderNat] at hc
    by_cases h : n < 10
    · rw [dif_pos h] at hc
      simp at hc
      exact ⟨n, h, hc⟩
    · rw [dif_neg h] at hc
      rcases List.mem_append.mp hc with hc | hc
      · exact ih (n / 10) (Nat.div_lt_self (by omega) (by omega)) c hc
      · simp at hc
        exact ⟨n % 10, Nat.mod_lt _ (by omega), hc⟩

theorem underscore_not_mem_renderNat (n : ℕ) : '_' ∉ renderNat n := by
  intro h
  obtain ⟨d, hd, he⟩ := renderNat_digits n '_' h
  exact digitToChar_ne_underscore d hd he.symm

theorem parseNat_append_digit (xs : PyStr) (c : Char) :
    parseNat (xs ++ [c]) = 10 * parseNat xs + charToDigit c := by
  simp [parseNat, List.foldl_append]

theorem parseNat_renderNat (n : ℕ) : parseNat (renderNat n) = n := by
  induction n using Nat.strong_induction_on with
  | _ n ih =>
    rw [renderNat]
    by_cases h : n < 10
    · rw [dif_pos h]
      simp [parseNat, charToDigit_digitToChar n h]
    · rw [dif_neg h]
      rw [parseNat_append_digit, ih (n / 10) (Nat.div_lt_self (by omega) (by omega)),
        charToDigit_digitToChar (n % 10) (Nat.mod_lt _ (by omega))]
      omega

theorem splitOnChar_not_mem (sep : Char) (s : PyStr) (h : sep ∉ s) :
    splitOnChar sep s = [s] := by
  induction s with
  | nil => rfl
  | cons c cs ih =>
    have hcs : sep ∉ cs := fun hh => h (List.mem_cons_of_mem c hh)
    have hc : ¬ c = sep := fun hh => h (hh ▸ List.mem_cons_self c cs)
    rw [splitOnChar, if_neg hc, ih hcs]

theorem splitOnChar_append (sep : Char) (t s : PyStr) (h : sep ∉ t) :
    splitOnChar sep (t ++ sep :: s) = t :: splitOnChar sep s := by
  induction t with
  | nil => simp [splitOnChar]
  | cons c cs ih =>
    have hcs : sep ∉ cs := fun hh => h (List.mem_cons_of_mem c hh)
    have hc : ¬ c = sep := fun hh => h (hh ▸ List.mem_cons_self c cs)
    rw [List.cons_append, splitOnChar, if_neg hc, ih hcs]

theorem extractId_mkKey (t : PyStr) (aid : ℕ) (ht : '_' ∉ t) :
    extractId (mkKey t aid) = aid := by
  unfold extractId mkKey
  rw [splitOnChar_append '_' t (renderNat aid) ht,
    splitOnChar_not_mem '_' (renderNat aid) (underscore_not_mem_renderNat aid)]
  simp [parseNat_renderNat]

theorem keysIds_append (ks1 ks2 : List PyStr) :
    keysIds (ks1 ++ ks2) = keysIds ks1 ++ keysIds ks2 := by
  simp [keysIds, List.filterMap_append]

theorem mem_keysIds_of_key (ks : List PyStr) (k : PyStr) (hk : '_' ∈ k) (h : k ∈ ks) :
    extractId k ∈ keysIds ks :=
  List.mem_filterMap.mpr ⟨k, h, by simp [hk]⟩

theorem keys_dictSet (m : Compiled) (k : PyStr) (v : StreamData) :
    ((dictSet m k v).map Prod.fst = m.map Prod.fst ∧ k ∈ m.map Prod.fst) ∨
    (dictSet m k v).map Prod.fst = m.map Prod.fst ++ [k] := by
  by_cases hany : m.any (fun p => decide (p.1 = k)) = true
  · left
    constructor
    · unfold dictSet
      rw [if_pos hany, List.map_map]
      refine List.map_congr_left ?_
      intro p _
      by_cases hpk : p.1 = k
      · simp [hpk]
      · simp [hpk]
    · obtain ⟨p, hp, hdec⟩ := List.any_eq_true.mp hany
      exact List.mem_map.mpr ⟨p, hp, of_decide_eq_true hdec⟩
  · right
    unfold dictSet
    rw [if_neg hany]
    simp

theorem existing_ids_dictSet (m : Compiled) (k : PyStr) (v : StreamData) :
    (∀ x ∈ existing_ids m, x ∈ existing_ids (dictSet m k v)) ∧
    ('_' ∈ k → extractId k ∈ existing_ids (dictSet m k v)) := by
  rcases keys_dictSet m k v with ⟨heq, hmem⟩ | heq
  · constructor
    · intro x hx
      unfold existing_ids at *
      rw [heq]
      exact hx
    · intro hk
      unfold existing_ids
      rw [heq]
      exact mem_keysIds_of_key _ k hk hmem
  · constructor
    · intro x hx
      unfold existing_ids at *
      rw [heq, keysIds_append]
      exact List.mem_append_left _ hx
    · intro hk
      unfold existing_ids
      rw [heq]
      exact mem_keysIds_of_key _ k hk (List.mem_append_right _ (List.mem_cons_self k []))

theorem velocityHeuristic_run_or_ride (s : StreamData) (u : PyStr)
    (hu : velocityHeuristic s = some u) : u = "run".toList ∨ u = "ride".toList := by
  unfold velocityHeuristic at hu
  cases hs : s.velocity with
  | none =>
    simp only [hs] at hu
    left
    exact (Option.some.inj hu).symm
  | some ds =>
    simp only [hs] at hu
    cases hm : ds.max? with
    | none =>
      simp only [hm] at hu
      cases hu
    | some m =>
      simp only [hm] at hu
      by_cases h7 : 7 < m
      · right
        rw [if_pos h7] at hu
        exact (Option.some.inj hu).symm
      · left
        rw [if_neg h7] at hu
        exact (Option.some.inj hu).symm

theorem typeFromStr_run_or_ride (t u : PyStr) (h : typeFromStr t = some u) :
    u = "run".toList ∨ u = "ride".toList := by
  unfold typeFromStr at h
  by_cases h1 : lowerStr t = "run".toList ∨ lowerStr t = "walk".toList
  · rw [if_pos h1] at h
    left
    exact (Option.some.inj h).symm
  · rw [if_neg h1] at h
    by_cases h2 : lowerStr t = "ride".toList
    · rw [if_pos h2] at h
      right
      exact (Option.some.inj h).symm
    · rw [if_neg h2] at h
      cases h

theorem determine_run_or_ride (stream : StreamData) (aid : ℕ)
    (meta : ℕ → Option ActivityMeta) (t : PyStr)
    (h : determine_activity_type stream aid meta = some t) :
    t = "run".toList ∨ t = "ride".toList := by
  unfold determine_activity_type at h
  cases hm : meta aid with
  | none =>
    rw [hm] at h
    exact velocityHeuristic_run_or_ride _ _ h
  | some m =>
    rw [hm] at h
    cases ht : m.type.bind typeFromStr with
    | some r =>
      simp only [ht] at h
      obtain ⟨a, _, hta⟩ := Option.bind_eq_some.mp ht
      obtain rfl := Option.some.inj h
      exact typeFromStr_run_or_ride a r hta
    | none =>
      simp only [ht] at h
      cases hst : m.sport_type.bind typeFromStr with
      | some r =>
        simp only [hst] at h
        obtain ⟨a, _, hta⟩ := Option.bind_eq_some.mp hst
        obtain rfl := Option.some.inj h
        exact typeFromStr_run_or_ride a r hta
      | none =>
        simp only [hst] at h
        exact velocityHeuristic_run_or_ride _ _ h

theorem underscore_not_mem_type (t : PyStr)
    (h : t = "run".toList ∨ t = "ride".toList) : '_' ∉ t := by
  rcases h with rfl | rfl <;> decide

theorem mem_underscore_mkKey (t : PyStr) (aid : ℕ) : '_' ∈ mkKey t aid := by
  simp [mkKey]

theorem storeLoop_mono (fetch : ℕ → StreamData) (meta : ℕ → Option ActivityMeta)
    (ids : List ℕ) :
    ∀ (c : Compiled) (x : ℕ), x ∈ existing_ids c →
      x ∈ existing_ids (storeLoop fetch meta ids c) := by
  induction ids with
  | nil =>
    intro c x hx
    simpa [storeLoop] using hx
  | cons a rest ih =>
    intro c x hx
    cases hd : determine_activity_type (fetch a) a meta with
    | none =>
      simp only [storeLoop, hd]
      exact ih c x hx
    | some t =>
      simp only [storeLoop, hd]
      exact ih _ x ((existing_ids_dictSet _ _ _).1 _
        ((existing_ids_dictSet _ _ _).1 x hx))

theorem storeLoop_adds (fetch : ℕ → StreamData) (meta : ℕ → Option ActivityMeta)
    (ids : List ℕ) :
    ∀ (c : Compiled) (aid : ℕ), aid ∈ ids →
      (determine_activity_type (fetch aid) aid meta).isSome = true →
      aid ∈ existing_ids (storeLoop fetch meta ids c) := by
  induction ids with
  | nil =>
    intro c aid h _
    simp at h
  | cons a rest ih =>
    intro c aid hmem hsucc
    rcases List.mem_cons.mp hmem with rfl | hmem
    · cases hd : determine_activity_type (fetch aid) aid meta with
      | none =>
        rw [hd] at hsucc
        simp at hsucc
      | some t =>
        simp only [storeLoop, hd]
        have hrr := determine_run_or_ride _ _ _ _ hd
        have hstored : extractId (mkKey t aid) ∈ existing_ids
            (dictSet (dictSet c (mkKey t aid) (fetch aid)) (mkKey t aid) (fetch aid)) :=
          (existing_ids_dictSet _ _ _).2 (mem_underscore_mkKey t aid)
        rw [extractId_mkKey t aid (underscore_not_mem_type t hrr)] at hstored
        exact storeLoop_mono fetch meta rest _ aid hstored
    · cases hd : determine_activity_type (fetch a) a meta with
      | none =>
        simp only [storeLoop, hd]
        exact ih c aid hmem hsucc
      | some t =>
        simp only [storeLoop, hd]
        exact ih _ aid hmem hsucc

/-- Claim C7: running the stream-collection step a second time with the
same activity ID set adds nothing: `get_missing_ids` returns only IDs not
already represented in the compiled mapping (parsed from its
`<type>_<id>` keys), so after a first run in which every missing stream
was fetched and classified, the second run's missing set is empty and the
compiled mapping is returned unchanged without saving — duplicate-ID
filtering makes the step idempotent. -/
theorem csd_main_idempotent (fetch : ℕ → StreamData) (meta : ℕ → Option ActivityMeta)
    (items : List IdItem) (compiled : Compiled)
    (hsucc : ∀ aid ∈ get_missing_ids items compiled,
      (determine_activity_type (fetch aid) aid meta).isSome = true) :
    (∀ aid ∈ get_missing_ids items compiled, aid ∉ existing_ids compiled) ∧
    get_missing_ids items (csd_main fetch meta items compiled) = [] ∧
    csd_main fetch meta items (csd_main fetch meta items compiled) =
      csd_main fetch meta items compiled := by
  have hnot : ∀ aid ∈ get_missing_ids items compiled, aid ∉ existing_ids compiled := by
    intro aid h
    have := (List.mem_filter.mp h).2
    simpa using this
  have hempty : get_missing_ids items (csd_main fetch meta items compiled) = [] := by
    unfold get_missing_ids
    rw [List.filter_eq_nil_iff]
    intro aid hmem
    have haid : aid ∈ existing_ids (csd_main fetch meta items compiled) := by
      by_cases hin : aid ∈ existing_ids compiled
      · unfold csd_main
        by_cases hm : get_missing_ids items compiled = []
        · rw [if_pos hm]
          exact hin
        · rw [if_neg hm]
          exact storeLoop_mono _ _ _ _ _ hin
      · have hmiss : aid ∈ get_missing_ids items compiled :=
          List.mem_filter.mpr ⟨hmem, by simpa using hin⟩
        have hm : get_missing_ids items compiled ≠ [] := by
          intro h0
          rw [h0] at hmiss
          cases hmiss
        unfold csd_main
        rw [if_neg hm]
        exact storeLoop_adds _ _ _ _ aid hmiss (hsucc aid hmiss)
    simp only [decide_eq_true_eq]
    exact not_not_intro haid
  refine ⟨hnot, hempty, ?_⟩
  have hstep : csd_main fetch meta items (csd_main fetch meta items compiled) =
      if get_missing_ids items (csd_main fetch meta items compiled) = [] then
        csd_main fetch meta items compiled
      else storeLoop fetch meta (get_missing_ids items (csd_main fetch meta items compiled))
        (csd_main fetch meta items compiled) := rfl
  rw [hstep, if_pos hempty]

/-- Witness for C7: one new id, stored on the first run, is no longer
missing on the second. -/
theorem csd_main_idempotent_witness :
    get_missing_ids [IdItem.intItem 5]
      (csd_main (fun _ => { velocity := none }) (fun _ => none) [IdItem.intItem 5] []) = [] :=
  (csd_main_idempotent (fun _ => { velocity := none }) (fun _ => none)
    [IdItem.intItem 5] [] (by decide)).2.1

end AgilePeak
